import Mathlib

/-
Verification of the claude-code-monitor worker core.

Shallow embedding of the TypeScript sources:
  * src/changelog.ts      — semver validation/parsing/comparison, changelog parsing
  * src/storage.ts        — KV-backed state store with bounded retries
  * src/error-recovery.ts — circuit breaker
  * src/telegram.ts       — notification dispatch retry loop
  * state-manager / index.ts — check-and-notify orchestration

JS strings are modelled as Lean `String` (a structure over `List Char`); the
string operations the source uses (`split` on a one-character separator,
`trim`, `parseInt`, `Number` on digit strings) are embedded explicitly below.
Machine integers are `Nat`/`Int`.  Fallible code returns `Except`/`Option`.
-/

set_option maxHeartbeats 1000000
set_option maxRecDepth 8000

namespace ClaudeMonitor

/-! ## JS string primitives used by the source -/

/-- Splits a character list at every occurrence of `sep`, JS
`String.prototype.split` with a one-character separator: the empty string
splits to `[""]`, separators at the ends produce empty segments. -/
def splitOnChar (sep : Char) : List Char → List (List Char)
  | [] => [[]]
  | c :: cs =>
    if c = sep then [] :: splitOnChar sep cs
    else
      match splitOnChar sep cs with
      | [] => [[c]]
      | t :: ts => (c :: t) :: ts

/-- JS `split` at the `String` level. -/
def jsSplit (sep : Char) (s : String) : List String :=
  (splitOnChar sep s.data).map String.mk

/-- Whitespace trim of a character list on both ends, JS
`String.prototype.trim` (the Unicode whitespace classes differ slightly from
`Char.isWhitespace`, but none of the characters where they differ occur in the
inputs of any claim). -/
def trimChars (l : List Char) : List Char :=
  ((l.dropWhile Char.isWhitespace).reverse.dropWhile Char.isWhitespace).reverse

/-- JS `trim` at the `String` level. -/
def jsTrim (s : String) : String := String.mk (trimChars s.data)

/-- Numeric value of a digit run, most significant first. -/
def digitsVal (l : List Char) : Nat := l.foldl (fun n c => n * 10 + (c.toNat - 48)) 0

/-- JS `Number(s)` on the all-digit component strings of a validated semver.
Exact for arbitrarily long digit runs; the IEEE-double rounding JS applies
above 2^53 is not modelled (no claim depends on it, and every comparison made
with these values is flip-symmetric either way). -/
def jsNumber (s : String) : Nat := digitsVal s.data

/-- JS `parseInt(s, 10)` on the alphanumeric identifier strings occurring in
pre-release sections: the value of the longest digit prefix, or `none` (NaN)
when the string does not start with a digit. -/
def jsParseInt (s : String) : Option Nat :=
  if s.data.takeWhile Char.isDigit = [] then none
  else some (digitsVal (s.data.takeWhile Char.isDigit))

/-- Sign of JS `String.prototype.localeCompare`, modelled as code-point
lexicographic order (values normalised to -1/0/1; the source only ever uses
the sign).  The default-locale collation can order some pairs of non-ASCII or
mixed-case identifiers differently, but every claim settled here depends only
on this being a strict total order with a flip-symmetric sign, which holds for
both. -/
def lexCmp : List Char → List Char → Int
  | [], [] => 0
  | [], _ :: _ => -1
  | _ :: _, [] => 1
  | a :: as, b :: bs =>
    if a.toNat = b.toNat then lexCmp as bs
    else if a.toNat < b.toNat then -1 else 1

/-- JS truthiness of an optional string field (`undefined` and `""` are
falsy). -/
def truthy : Option String → Bool
  | none => false
  | some s => decide (s ≠ "")

/-! ## Error model

`WorkerError` carries a message and a `code`; the only message content any
embedded control flow inspects is whether it contains `"Invalid state data"`
(checked by `isFirstRun`), recorded as the `EMsg` tag.  `details.originalError`
is the `originalError` field; other payload is not modelled. -/

/-- Error codes of `ErrorCode` in types/models.ts. -/
inductive ErrCode where
  | FETCH_ERROR
  | PARSE_ERROR
  | STORAGE_ERROR
  | NOTIFICATION_ERROR
  | CONFIG_ERROR
  | VALIDATION_ERROR
  | API_ERROR
  | RATE_LIMIT_ERROR
  | UNKNOWN_ERROR
deriving DecidableEq, Repr

/-- Whether a `WorkerError` message contains the substring
`"Invalid state data"` (the only message test in the embedded code). -/
inductive EMsg where
  | invalidStateData
  | otherMsg
deriving DecidableEq, Repr

/-- A thrown JS value: either a `WorkerError` (code, message tag, optional
`details.originalError`) or a non-`WorkerError` platform error tagged by the
index of the primitive operation that raised it.  In every wrap site of the
embedded code the wrapped `originalError` is a non-`WorkerError` platform
error (a `WorkerError` is re-thrown unwrapped instead), so `originalError`
stores just the platform tag. -/
inductive JsErr where
  | workerError (code : ErrCode) (msg : EMsg) (originalError : Option Nat)
  | platform (tag : Nat)
deriving DecidableEq, Repr

/-- `error instanceof WorkerError`. -/
def JsErr.isWorkerError : JsErr → Bool
  | .workerError _ _ _ => true
  | .platform _ => false

/-! ## Semantic-version validation — `isValidSemver` (src/changelog.ts)

The regex `^\d+\.\d+\.\d+(?:-[a-zA-Z0-9.-]+)?(?:\+[a-zA-Z0-9.-]+)?$` is
embedded as a greedy matcher.  For this particular expression greedy matching
coincides with the backtracking semantics: each quantified class excludes the
character that must follow it, so no successful match ever requires an
earlier part to yield characters back. -/

/-- The character class `[a-zA-Z0-9.-]` of the pre-release and build
sections. -/
def isIdentChar (c : Char) : Bool := c.isAlphanum || c = '.' || c = '-'

/-- Matches `(?:\+[a-zA-Z0-9.-]+)?$`. -/
def matchOptBuild : List Char → Bool
  | [] => true
  | c :: rest => if c = '+' then decide (rest ≠ []) && rest.all isIdentChar else false

/-- Matches `(?:-[a-zA-Z0-9.-]+)?(?:\+[a-zA-Z0-9.-]+)?$`. -/
def matchOptPre : List Char → Bool
  | [] => matchOptBuild []
  | c :: rest =>
    if c = '-' then
      if rest.takeWhile isIdentChar = [] then false
      else matchOptBuild (rest.dropWhile isIdentChar)
    else matchOptBuild (c :: rest)

/-- Matches the whole anchored semver regex against a character list. -/
def matchVerCore (l : List Char) : Bool :=
  if l.takeWhile Char.isDigit = [] then false
  else
    match l.dropWhile Char.isDigit with
    | c1 :: r1 =>
      if c1 = '.' then
        if r1.takeWhile Char.isDigit = [] then false
        else
          match r1.dropWhile Char.isDigit with
          | c2 :: r2 =>
            if c2 = '.' then
              if r2.takeWhile Char.isDigit = [] then false
              else matchOptPre (r2.dropWhile Char.isDigit)
            else false
          | [] => false
      else false
    | [] => false

/-- `isValidSemver` from src/changelog.ts. -/
def isValidSemver (version : String) : Bool := matchVerCore version.data

/-! ## Semantic-version parsing and comparison (src/changelog.ts) -/

/-- Result of `parseSemanticVersion`. -/
structure ParsedSemver where
  major : Nat
  minor : Nat
  patch : Nat
  prerelease : Option String
  build : Option String
deriving DecidableEq, Repr

/-- `parseSemanticVersion` from src/changelog.ts.  The JS destructurings
`[versionWithoutBuild, build] = version.split('+')` and
`[mainPart, prerelease] = versionWithoutBuild.split('-')` keep only the first
two segments of each split; a missing second segment is `undefined`
(`none`). -/
def parseSemanticVersion (version : String) : ParsedSemver :=
  let plusParts := jsSplit '+' version
  let versionWithoutBuild := plusParts.headD ""
  let build := (plusParts.drop 1).head?
  let dashParts := jsSplit '-' versionWithoutBuild
  let mainPart := dashParts.headD ""
  let prerelease := (dashParts.drop 1).head?
  let nums := jsSplit '.' mainPart
  { major := jsNumber (nums.headD "")
    minor := jsNumber ((nums.drop 1).headD "")
    patch := jsNumber ((nums.drop 2).headD "")
    prerelease := prerelease
    build := build }

/-- The identifier loop of `comparePrereleases`: iterates over the
dot-separated parts; the shorter sequence is lesser; `parseInt`-numeric parts
compare numerically, a `parseInt`-numeric part sorts below a non-numeric one,
two non-numeric parts compare by `localeCompare` sign. -/
def comparePrereleaseParts : List String → List String → Int
  | [], [] => 0
  | [], _ :: _ => -1
  | _ :: _, [] => 1
  | p1 :: r1, p2 :: r2 =>
    match jsParseInt p1, jsParseInt p2 with
    | some n1, some n2 =>
      if n1 = n2 then comparePrereleaseParts r1 r2
      else if n1 > n2 then 1 else -1
    | some _, none => -1
    | none, some _ => 1
    | none, none =>
      let cmp := lexCmp p1.data p2.data
      if cmp = 0 then comparePrereleaseParts r1 r2
      else if cmp > 0 then 1 else -1

/-- `comparePrereleases` from src/changelog.ts. -/
def comparePrereleases (pre1 pre2 : String) : Int :=
  comparePrereleaseParts (jsSplit '.' pre1) (jsSplit '.' pre2)

/-- The comparison `compareVersions` performs after parsing both inputs. -/
def compareParsed (p1 p2 : ParsedSemver) : Int :=
  if p1.major ≠ p2.major then (if p1.major > p2.major then 1 else -1)
  else if p1.minor ≠ p2.minor then (if p1.minor > p2.minor then 1 else -1)
  else if p1.patch ≠ p2.patch then (if p1.patch > p2.patch then 1 else -1)
  else if truthy p1.prerelease && !truthy p2.prerelease then -1
  else if !truthy p1.prerelease && truthy p2.prerelease then 1
  else if truthy p1.prerelease && truthy p2.prerelease then
    comparePrereleases (p1.prerelease.getD "") (p2.prerelease.getD "")
  else 0

/-- `compareVersions` from src/changelog.ts; `none` models the
`WorkerError(PARSE_ERROR)` thrown on invalid input. -/
def compareVersions (v1 v2 : String) : Option Int :=
  if isValidSemver v1 && isValidSemver v2 then
    some (compareParsed (parseSemanticVersion v1) (parseSemanticVersion v2))
  else none

/-- `isNewerVersion` from src/changelog.ts. -/
def isNewerVersion (v1 v2 : String) : Option Bool :=
  (compareVersions v1 v2).map (fun r => decide (r > 0))

/-- `isNewVersionAvailable` from the state-manager module: invalid versions
yield `false`, otherwise `compareVersions(latest, current) > 0`. -/
def isNewVersionAvailable (currentVersion latestVersion : String) : Bool :=
  if !(isValidSemver currentVersion && isValidSemver latestVersion) then false
  else
    match compareVersions latestVersion currentVersion with
    | some r => decide (r > 0)
    | none => false

/-! ## Comparator algebra (claims C4, C5, C10) -/

theorem lexCmp_self : ∀ l : List Char, lexCmp l l = 0
  | [] => rfl
  | _ :: as => by simp [lexCmp, lexCmp_self as]

theorem lexCmp_antisymm : ∀ a b : List Char, lexCmp a b = -lexCmp b a
  | [], [] => rfl
  | [], _ :: _ => rfl
  | _ :: _, [] => rfl
  | a :: as, b :: bs => by
    simp only [lexCmp]
    by_cases h : a.toNat = b.toNat
    · simp [h, lexCmp_antisymm as bs]
    · have h2 : ¬b.toNat = a.toNat := fun e => h e.symm
      simp only [h, h2, if_false]
      split_ifs <;> omega

theorem lexCmp_cases : ∀ a b : List Char, lexCmp a b = -1 ∨ lexCmp a b = 0 ∨ lexCmp a b = 1
  | [], [] => by simp [lexCmp]
  | [], _ :: _ => by simp [lexCmp]
  | _ :: _, [] => by simp [lexCmp]
  | a :: as, b :: bs => by
    simp only [lexCmp]
    split_ifs with h1 h2
    · exact lexCmp_cases as bs
    · simp
    · simp

theorem comparePrereleaseParts_self : ∀ l : List String, comparePrereleaseParts l l = 0
  | [] => rfl
  | p :: r => by
    simp only [comparePrereleaseParts]
    cases h : jsParseInt p <;>
      simp [lexCmp_self, comparePrereleaseParts_self r]

theorem comparePrereleaseParts_antisymm :
    ∀ l1 l2 : List String, comparePrereleaseParts l1 l2 = -comparePrereleaseParts l2 l1
  | [], [] => rfl
  | [], _ :: _ => rfl
  | _ :: _, [] => rfl
  | p1 :: r1, p2 :: r2 => by
    simp only [comparePrereleaseParts]
    cases h1 : jsParseInt p1 <;> cases h2 : jsParseInt p2
    · have hlex := lexCmp_antisymm p1.data p2.data
      by_cases hc : lexCmp p1.data p2.data = 0
      · have hc2 : lexCmp p2.data p1.data = 0 := by omega
        simp [hc, hc2, comparePrereleaseParts_antisymm r1 r2]
      · have hc2 : ¬lexCmp p2.data p1.data = 0 := by omega
        simp only [hc, hc2, if_false]
        split_ifs <;> omega
    · simp
    · simp
    · rename_i n1 n2
      by_cases hn : n1 = n2
      · simp [hn, comparePrereleaseParts_antisymm r1 r2]
      · have hn2 : ¬n2 = n1 := fun e => hn e.symm
        simp only [hn, hn2, if_false]
        split_ifs <;> omega

theorem comparePrereleases_self (s : String) : comparePrereleases s s = 0 :=
  comparePrereleaseParts_self _

theorem comparePrereleases_antisymm (a b : String) :
    comparePrereleases a b = -comparePrereleases b a :=
  comparePrereleaseParts_antisymm _ _

theorem compareParsed_self (p : ParsedSemver) : compareParsed p p = 0 := by
  unfold compareParsed
  cases h : truthy p.prerelease <;> simp [h, comparePrereleases_self]

theorem compareParsed_antisymm (p q : ParsedSemver) :
    compareParsed p q = -compareParsed q p := by
  unfold compareParsed
  by_cases hM : p.major = q.major
  · by_cases hmi : p.minor = q.minor
    · by_cases hpa : p.patch = q.patch
      · cases h1 : truthy p.prerelease <;> cases h2 : truthy q.prerelease <;>
          simp [hM, hmi, hpa, h1, h2]
        exact comparePrereleases_antisymm _ _
      · have hpa2 : ¬q.patch = p.patch := fun e => hpa e.symm
        simp only [hM, hmi, hpa, hpa2, ne_eq, not_true_eq_false, not_false_eq_true,
          if_true, if_false]
        split_ifs <;> omega
    · have hmi2 : ¬q.minor = p.minor := fun e => hmi e.symm
      simp only [hM, hmi, hmi2, ne_eq, not_true_eq_false, not_false_eq_true,
        if_true, if_false]
      split_ifs <;> omega
  · have hM2 : ¬q.major = p.major := fun e => hM e.symm
    simp only [hM, hM2, ne_eq, not_false_eq_true, if_true]
    split_ifs <;> omega

/-- C5: for all valid semver strings `a` and `b`, `compare(a,b)` succeeds and
equals `-compare(b,a)`, and `compare(a,a) = 0`. -/
theorem compareVersions_antisymm_refl (a b : String)
    (ha : isValidSemver a = true) (hb : isValidSemver b = true) :
    (∃ r, compareVersions a b = some r ∧ compareVersions b a = some (-r)) ∧
      compareVersions a a = some 0 := by
  refine ⟨⟨compareParsed (parseSemanticVersion a) (parseSemanticVersion b), ?_, ?_⟩, ?_⟩
  · simp [compareVersions, ha, hb]
  · simp [compareVersions, ha, hb]
    exact compareParsed_antisymm _ _
  · simp [compareVersions, ha, compareParsed_self]

/-- Witness for C5 at `a = "1.2.3-alpha.1"`, `b = "1.2.4"`. -/
theorem compareVersions_antisymm_refl_witness :
    isValidSemver "1.2.3-alpha.1" = true ∧ isValidSemver "1.2.4" = true ∧
    ((∃ r, compareVersions "1.2.3-alpha.1" "1.2.4" = some r ∧
        compareVersions "1.2.4" "1.2.3-alpha.1" = some (-r)) ∧
      compareVersions "1.2.3-alpha.1" "1.2.3-alpha.1" = some 0) :=
  ⟨by decide, by decide,
    compareVersions_antisymm_refl "1.2.3-alpha.1" "1.2.4" (by decide) (by decide)⟩

/-- C10: `parseSemanticVersion` keeps only the text between the first and the
second hyphen as the pre-release, so `"1.0.0-alpha-1"` and `"1.0.0-alpha-2"`
are distinct valid versions that parse to the same pre-release `"alpha"`,
compare equal, and are not newer than each other in either direction. -/
theorem prerelease_truncated_at_second_hyphen :
    (parseSemanticVersion "1.0.0-alpha-1").prerelease = some "alpha" ∧
    (parseSemanticVersion "1.0.0-alpha-2").prerelease = some "alpha" ∧
    "1.0.0-alpha-1" ≠ "1.0.0-alpha-2" ∧
    isValidSemver "1.0.0-alpha-1" = true ∧
    isValidSemver "1.0.0-alpha-2" = true ∧
    compareVersions "1.0.0-alpha-1" "1.0.0-alpha-2" = some 0 ∧
    isNewerVersion "1.0.0-alpha-1" "1.0.0-alpha-2" = some false ∧
    isNewerVersion "1.0.0-alpha-2" "1.0.0-alpha-1" = some false := by
  decide

/-! ## Claim C4: the claimed pre-release identifier rule

Spec-side definitions written from the claim's words: an identifier is
*numeric* when it consists solely of digits; numeric identifiers compare
numerically; a numeric identifier always sorts lower than an alphanumeric
one; alphanumeric identifiers compare lexically; the sequence that runs out
of identifiers first is lesser. -/

/-- Spec-side (claim C4): a numeric identifier is a nonempty all-digit
string. -/
def specIsNumericIdent (s : String) : Bool :=
  decide (s.data ≠ []) && s.data.all Char.isDigit

/-- Spec-side (claim C4): comparison of a single pair of identifiers under
the claimed rule. -/
def specIdentCmp (a b : String) : Int :=
  if specIsNumericIdent a && specIsNumericIdent b then
    if digitsVal a.data < digitsVal b.data then -1
    else if digitsVal b.data < digitsVal a.data then 1 else 0
  else if specIsNumericIdent a then -1
  else if specIsNumericIdent b then 1
  else lexCmp a.data b.data

/-- Spec-side (claim C4): identifier-by-identifier comparison of two
pre-release sequences under the claimed rule. -/
def specPrereleaseCmp : List String → List String → Int
  | [], [] => 0
  | [], _ :: _ => -1
  | _ :: _, [] => 1
  | a :: as, b :: bs =>
    if specIdentCmp a b = 0 then specPrereleaseCmp as bs else specIdentCmp a b

/-- C4 counterexample: `"1.0.0-2"` and `"1.0.0-1a"` are valid, share
major.minor.patch, and both carry pre-releases.  Under the claimed rule the
numeric identifier `"2"` sorts below the alphanumeric `"1a"` (result -1), but
the code parses `"1a"` with `parseInt`, getting `1`, and compares `2 > 1`
numerically, returning `1`. -/
theorem comparePrereleases_claim_counterexample :
    isValidSemver "1.0.0-2" = true ∧ isValidSemver "1.0.0-1a" = true ∧
    (parseSemanticVersion "1.0.0-2").major = (parseSemanticVersion "1.0.0-1a").major ∧
    (parseSemanticVersion "1.0.0-2").minor = (parseSemanticVersion "1.0.0-1a").minor ∧
    (parseSemanticVersion "1.0.0-2").patch = (parseSemanticVersion "1.0.0-1a").patch ∧
    (parseSemanticVersion "1.0.0-2").prerelease = some "2" ∧
    (parseSemanticVersion "1.0.0-1a").prerelease = some "1a" ∧
    specPrereleaseCmp ["2"] ["1a"] = -1 ∧
    compareVersions "1.0.0-2" "1.0.0-1a" = some 1 := by
  decide

/-- Amended (C4) identifier key: an identifier *starting with a digit* is
numeric, with the value of its longest digit prefix (JS `parseInt`); all other
identifiers compare as text. -/
def amendedIdentKey (s : String) : Nat ⊕ String :=
  match s.data with
  | c :: _ =>
    if c.isDigit then Sum.inl (digitsVal (s.data.takeWhile Char.isDigit))
    else Sum.inr s
  | [] => Sum.inr s

/-- Amended (C4) single-identifier comparison. -/
def amendedIdentCmp (a b : String) : Int :=
  match amendedIdentKey a, amendedIdentKey b with
  | Sum.inl m, Sum.inl n => if m < n then -1 else if n < m then 1 else 0
  | Sum.inl _, Sum.inr _ => -1
  | Sum.inr _, Sum.inl _ => 1
  | Sum.inr x, Sum.inr y => lexCmp x.data y.data

/-- Amended (C4) identifier-by-identifier pre-release comparison. -/
def amendedPrereleaseCmp : List String → List String → Int
  | [], [] => 0
  | [], _ :: _ => -1
  | _ :: _, [] => 1
  | a :: as, b :: bs =>
    if amendedIdentCmp a b = 0 then amendedPrereleaseCmp as bs
    else amendedIdentCmp a b

theorem amendedIdentKey_eq_parse (s : String) :
    amendedIdentKey s =
      match jsParseInt s with
      | some n => Sum.inl n
      | none => Sum.inr s := by
  unfold amendedIdentKey jsParseInt
  cases h : s.data with
  | nil => simp [h]
  | cons c cs =>
    by_cases hd : c.isDigit <;> simp [h, hd, List.takeWhile_cons]

theorem comparePrereleaseParts_eq_amended :
    ∀ l1 l2 : List String, comparePrereleaseParts l1 l2 = amendedPrereleaseCmp l1 l2
  | [], [] => rfl
  | [], _ :: _ => rfl
  | _ :: _, [] => rfl
  | a :: as, b :: bs => by
    simp only [comparePrereleaseParts, amendedPrereleaseCmp, amendedIdentCmp,
      amendedIdentKey_eq_parse a, amendedIdentKey_eq_parse b]
    cases h1 : jsParseInt a <;> cases h2 : jsParseInt b
    · rcases lexCmp_cases a.data b.data with h | h | h <;>
        simp [h, comparePrereleaseParts_eq_amended as bs]
    · simp
    · simp
    · rename_i n1 n2
      dsimp only
      rcases Nat.lt_trichotomy n1 n2 with h | h | h
      · have ha1 : ¬n1 = n2 := Nat.ne_of_lt h
        have ha2 : ¬n1 > n2 := Nat.lt_asymm h
        have ha3 : ¬n2 < n1 := Nat.lt_asymm h
        simp [h, ha1, ha2, ha3]
      · simp [h, comparePrereleaseParts_eq_amended as bs]
      · have ha1 : ¬n1 = n2 := fun e => Nat.ne_of_lt h e.symm
        have ha2 : ¬n1 < n2 := Nat.lt_asymm h
        simp [h, ha1, ha2]

/-- C4 amended: for every pair of valid versions with equal major.minor.patch
that both carry (truthy) pre-release sections, `compareVersions` compares the
pre-releases identifier-by-identifier, where an identifier starting with a
digit is numeric with the value of its longest digit prefix, such identifiers
compare numerically and sort below identifiers not starting with a digit,
identifiers not starting with a digit compare lexically, and the sequence
that runs out of identifiers first is lesser. -/
theorem compareVersions_prerelease_rule (a b : String)
    (ha : isValidSemver a = true) (hb : isValidSemver b = true)
    (hM : (parseSemanticVersion a).major = (parseSemanticVersion b).major)
    (hm : (parseSemanticVersion a).minor = (parseSemanticVersion b).minor)
    (hp : (parseSemanticVersion a).patch = (parseSemanticVersion b).patch)
    (h1 : truthy (parseSemanticVersion a).prerelease = true)
    (h2 : truthy (parseSemanticVersion b).prerelease = true) :
    compareVersions a b =
      some (amendedPrereleaseCmp
        (jsSplit '.' ((parseSemanticVersion a).prerelease.getD ""))
        (jsSplit '.' ((parseSemanticVersion b).prerelease.getD ""))) := by
  simp [compareVersions, ha, hb, compareParsed, hM, hm, hp, h1, h2,
    comparePrereleases, comparePrereleaseParts_eq_amended]

/-- Witness for the amended C4 at `"1.0.0-alpha.2"` vs `"1.0.0-alpha.10"`. -/
theorem compareVersions_prerelease_rule_witness :
    isValidSemver "1.0.0-alpha.2" = true ∧ isValidSemver "1.0.0-alpha.10" = true ∧
    (parseSemanticVersion "1.0.0-alpha.2").major = (parseSemanticVersion "1.0.0-alpha.10").major ∧
    (parseSemanticVersion "1.0.0-alpha.2").minor = (parseSemanticVersion "1.0.0-alpha.10").minor ∧
    (parseSemanticVersion "1.0.0-alpha.2").patch = (parseSemanticVersion "1.0.0-alpha.10").patch ∧
    truthy (parseSemanticVersion "1.0.0-alpha.2").prerelease = true ∧
    truthy (parseSemanticVersion "1.0.0-alpha.10").prerelease = true ∧
    compareVersions "1.0.0-alpha.2" "1.0.0-alpha.10" =
      some (amendedPrereleaseCmp
        (jsSplit '.' ((parseSemanticVersion "1.0.0-alpha.2").prerelease.getD ""))
        (jsSplit '.' ((parseSemanticVersion "1.0.0-alpha.10").prerelease.getD ""))) :=
  ⟨by decide, by decide, by decide, by decide, by decide, by decide, by decide,
    compareVersions_prerelease_rule "1.0.0-alpha.2" "1.0.0-alpha.10"
      (by decide) (by decide) (by decide) (by decide) (by decide) (by decide) (by decide)⟩

/-! ## Claim C9: the validation grammar

`isValidSemver` is compared against the grammar stated by the claim (which
restricts MAJOR/MINOR/PATCH to have no leading zeros) and against the grammar
the regex actually implements (arbitrary nonempty digit runs). -/

/-- Spec-side (claim C9) number component: nonempty, all digits, and no
leading zero except the literal "0". -/
def specNumNoLeadingZero (l : List Char) : Bool :=
  decide (l ≠ []) && l.all Char.isDigit &&
    (decide (l = ['0']) || decide (l.head? ≠ some '0'))

/-- Spec-side (claim C9) validator: the claimed grammar, i.e. the code's
grammar with the no-leading-zeros restriction on the three numeric
components. -/
def specSemverValid (s : String) : Bool :=
  if specNumNoLeadingZero (s.data.takeWhile Char.isDigit) = false then false
  else
    match s.data.dropWhile Char.isDigit with
    | c1 :: r1 =>
      if c1 = '.' then
        if specNumNoLeadingZero (r1.takeWhile Char.isDigit) = false then false
        else
          match r1.dropWhile Char.isDigit with
          | c2 :: r2 =>
            if c2 = '.' then
              if specNumNoLeadingZero (r2.takeWhile Char.isDigit) = false then false
              else matchOptPre (r2.dropWhile Char.isDigit)
            else false
          | [] => false
      else false
    | [] => false

/-- C9 counterexample: the regex `\d+` places no restriction on leading
zeros, so `isValidSemver "01.2.3"` is `true`, while the claimed grammar
rejects it. -/
theorem isValidSemver_leading_zero_counterexample :
    isValidSemver "01.2.3" = true ∧ specSemverValid "01.2.3" = false := by
  decide

/-- A nonempty all-digit run. -/
def DigitRun (l : List Char) : Prop := l ≠ [] ∧ ∀ c ∈ l, c.isDigit = true

/-- A nonempty run over the class `[a-zA-Z0-9.-]`. -/
def IdentRun (l : List Char) : Prop := l ≠ [] ∧ ∀ c ∈ l, isIdentChar c = true

/-- Characters contributed by an optional pre-release section. -/
def preOptChars : Option (List Char) → List Char
  | none => []
  | some p => '-' :: p

/-- Characters contributed by an optional build section. -/
def buildOptChars : Option (List Char) → List Char
  | none => []
  | some q => '+' :: q

/-- The grammar `MAJOR.MINOR.PATCH[-PRERELEASE][+BUILD]` with nonempty digit
runs for the three components (leading zeros permitted) and nonempty
`[a-zA-Z0-9.-]` runs for the two optional sections. -/
def SemverShape (l : List Char) : Prop :=
  ∃ a b c pre bld,
    DigitRun a ∧ DigitRun b ∧ DigitRun c ∧
    (∀ p, pre = some p → IdentRun p) ∧
    (∀ q, bld = some q → IdentRun q) ∧
    l = a ++ ('.' :: (b ++ ('.' :: (c ++ (preOptChars pre ++ buildOptChars bld)))))

theorem mem_takeWhile_sat {p : Char → Bool} :
    ∀ (l : List Char) (x : Char), x ∈ l.takeWhile p → p x = true
  | c :: cs, x, hm => by
    by_cases hp : p c
    · rw [List.takeWhile_cons, if_pos hp] at hm
      rcases List.mem_cons.mp hm with rfl | hm2
      · exact hp
      · exact mem_takeWhile_sat cs x hm2
    · rw [List.takeWhile_cons, if_neg hp] at hm
      exact absurd hm (List.not_mem_nil x)

theorem span_append {p : Char → Bool} :
    ∀ xs ys : List Char,
      (∀ x ∈ xs, p x = true) → (∀ y, ys.head? = some y → p y = false) →
      (xs ++ ys).takeWhile p = xs ∧ (xs ++ ys).dropWhile p = ys
  | [], ys, _, hy => by
    cases ys with
    | nil => exact ⟨rfl, rfl⟩
    | cons y t =>
      simp only [List.nil_append, List.takeWhile_cons, List.dropWhile_cons,
        hy y rfl, if_false, Bool.false_eq_true]
      exact ⟨trivial, trivial⟩
  | x :: xs, ys, hx, hy => by
    have hpx : p x = true := hx x (List.mem_cons_self x xs)
    have ih := span_append xs ys (fun a ha => hx a (List.mem_cons_of_mem x ha)) hy
    simp only [List.cons_append, List.takeWhile_cons, List.dropWhile_cons, hpx,
      if_true, ih.1, ih.2]
    exact ⟨trivial, trivial⟩

theorem matchOptBuild_shape {l : List Char} (h : matchOptBuild l = true) :
    l = [] ∨ ∃ q, IdentRun q ∧ l = '+' :: q := by
  cases l with
  | nil => exact Or.inl rfl
  | cons c rest =>
    right
    simp only [matchOptBuild] at h
    by_cases hc : c = '+'
    · rw [if_pos hc] at h
      subst hc
      rw [Bool.and_eq_true] at h
      have hands := h
      refine ⟨rest, ⟨of_decide_eq_true hands.1, ?_⟩, rfl⟩
      intro x hx
      exact List.all_eq_true.mp hands.2 x hx
    · rw [if_neg hc] at h
      exact absurd h (by decide)

theorem matchOptPre_shape {l : List Char} (h : matchOptPre l = true) :
    ∃ pre bld,
      (∀ p, pre = some p → IdentRun p) ∧ (∀ q, bld = some q → IdentRun q) ∧
      l = preOptChars pre ++ buildOptChars bld := by
  cases l with
  | nil =>
    exact ⟨none, none, by simp, by simp, rfl⟩
  | cons c rest =>
    simp only [matchOptPre] at h
    by_cases hc : c = '-'
    · rw [if_pos hc] at h
      subst hc
      by_cases hemp : rest.takeWhile isIdentChar = []
      · rw [if_pos hemp] at h
        exact absurd h (by decide)
      · rw [if_neg hemp] at h
        have hsplit := List.takeWhile_append_dropWhile (p := isIdentChar) (l := rest)
        rcases matchOptBuild_shape h with hnil | ⟨q, hq, heq⟩
        · refine ⟨some (rest.takeWhile isIdentChar), none, ?_, by simp, ?_⟩
          · intro p hp
            cases hp
            exact ⟨hemp, fun x hx => mem_takeWhile_sat rest x hx⟩
          · rw [hnil, List.append_nil] at hsplit
            simp [preOptChars, buildOptChars, hsplit]
        · refine ⟨some (rest.takeWhile isIdentChar), some q, ?_, ?_, ?_⟩
          · intro p hp
            cases hp
            exact ⟨hemp, fun x hx => mem_takeWhile_sat rest x hx⟩
          · intro qq hqq
            cases hqq
            exact hq
          · rw [heq] at hsplit
            have hgoal :
                preOptChars (some (rest.takeWhile isIdentChar)) ++ buildOptChars (some q) =
                  '-' :: (rest.takeWhile isIdentChar ++ '+' :: q) := by
              simp [preOptChars, buildOptChars]
            rw [hgoal, hsplit]
    · rw [if_neg hc] at h
      rcases matchOptBuild_shape h with hnil | ⟨q, hq, heq⟩
      · exact absurd hnil (by simp)
      · refine ⟨none, some q, by simp, ?_, by simpa [preOptChars, buildOptChars] using heq⟩
        intro qq hqq
        cases hqq
        exact hq

theorem buildOptChars_head_not {bld : Option (List Char)} {p : Char → Bool}
    (hplus : p '+' = false) :
    ∀ y, (buildOptChars bld).head? = some y → p y = false := by
  cases bld with
  | none => intro y hy; exact absurd hy (by simp [buildOptChars])
  | some q =>
    intro y hy
    simp only [buildOptChars, List.head?_cons, Option.some.injEq] at hy
    rw [← hy]
    exact hplus

theorem matchOptPre_of_shape (pre bld : Option (List Char))
    (hp : ∀ p, pre = some p → IdentRun p) (hb : ∀ q, bld = some q → IdentRun q) :
    matchOptPre (preOptChars pre ++ buildOptChars bld) = true := by
  have hbuild : matchOptBuild (buildOptChars bld) = true := by
    cases bld with
    | none => rfl
    | some q =>
      have hq := hb q rfl
      simpa [buildOptChars, matchOptBuild, hq.1, List.all_eq_true] using hq.2
  cases pre with
  | none =>
    cases bld with
    | none => rfl
    | some q =>
      simp only [preOptChars, List.nil_append, buildOptChars, matchOptPre]
      rw [if_neg (by decide)]
      simpa [buildOptChars] using hbuild
  | some p =>
    have hpp := hp p rfl
    have hspan := span_append (p := isIdentChar) p (buildOptChars bld) hpp.2
      (buildOptChars_head_not (by decide))
    simp only [preOptChars, List.cons_append, matchOptPre, if_true]
    rw [hspan.1, hspan.2, if_neg hpp.1]
    exact hbuild

/-- C9 amended: `isValidSemver` accepts exactly the strings of the grammar
`MAJOR.MINOR.PATCH[-PRERELEASE][+BUILD]` where MAJOR, MINOR and PATCH are
nonempty digit strings (leading zeros permitted) and PRERELEASE and BUILD are
nonempty strings over the class `[a-zA-Z0-9.-]`. -/
theorem isValidSemver_iff_shape (s : String) :
    isValidSemver s = true ↔ SemverShape s.data := by
  constructor
  · intro h
    unfold isValidSemver matchVerCore at h
    by_cases h1 : s.data.takeWhile Char.isDigit = []
    · rw [if_pos h1] at h; exact absurd h (by decide)
    rw [if_neg h1] at h
    cases hd1 : s.data.dropWhile Char.isDigit with
    | nil => rw [hd1] at h; exact absurd h (by decide)
    | cons c1 r1 =>
      rw [hd1] at h
      dsimp only at h
      by_cases hc1 : c1 = '.'
      swap
      · rw [if_neg hc1] at h; exact absurd h (by decide)
      rw [if_pos hc1] at h
      subst hc1
      by_cases h2 : r1.takeWhile Char.isDigit = []
      · rw [if_pos h2] at h; exact absurd h (by decide)
      rw [if_neg h2] at h
      cases hd2 : r1.dropWhile Char.isDigit with
      | nil => rw [hd2] at h; exact absurd h (by decide)
      | cons c2 r2 =>
        rw [hd2] at h
        dsimp only at h
        by_cases hc2 : c2 = '.'
        swap
        · rw [if_neg hc2] at h; exact absurd h (by decide)
        rw [if_pos hc2] at h
        subst hc2
        by_cases h3 : r2.takeWhile Char.isDigit = []
        · rw [if_pos h3] at h; exact absurd h (by decide)
        rw [if_neg h3] at h
        obtain ⟨pre, bld, hpre, hbld, heq⟩ := matchOptPre_shape h
        refine ⟨s.data.takeWhile Char.isDigit, r1.takeWhile Char.isDigit,
          r2.takeWhile Char.isDigit, pre, bld,
          ⟨h1, fun c hc => mem_takeWhile_sat _ c hc⟩,
          ⟨h2, fun c hc => mem_takeWhile_sat _ c hc⟩,
          ⟨h3, fun c hc => mem_takeWhile_sat _ c hc⟩, hpre, hbld, ?_⟩
        have e1 := List.takeWhile_append_dropWhile (p := Char.isDigit) (l := s.data)
        have e2 := List.takeWhile_append_dropWhile (p := Char.isDigit) (l := r1)
        have e3 := List.takeWhile_append_dropWhile (p := Char.isDigit) (l := r2)
        rw [hd1] at e1
        rw [hd2] at e2
        rw [heq] at e3
        have hall :
            s.data.takeWhile Char.isDigit ++
              ('.' :: (r1.takeWhile Char.isDigit ++
                ('.' :: (r2.takeWhile Char.isDigit ++
                  (preOptChars pre ++ buildOptChars bld))))) = s.data := by
          rw [e3, e2, e1]
        exact hall.symm
  · rintro ⟨a, b, c, pre, bld, ha, hb2, hc, hpre, hbld, heq⟩
    have hrest : ∀ y, (preOptChars pre ++ buildOptChars bld).head? = some y →
        Char.isDigit y = false := by
      cases pre with
      | some p =>
        intro y hy
        simp only [preOptChars, List.cons_append, List.head?_cons,
          Option.some.injEq] at hy
        rw [← hy]; decide
      | none =>
        simp only [preOptChars, List.nil_append]
        exact buildOptChars_head_not (by decide)
    have s3 := span_append (p := Char.isDigit) c _ hc.2 hrest
    have s2 := span_append (p := Char.isDigit) b
      ('.' :: (c ++ (preOptChars pre ++ buildOptChars bld))) hb2.2
      (by intro y hy; simp only [List.head?_cons, Option.some.injEq] at hy
          rw [← hy]; decide)
    have s1 := span_append (p := Char.isDigit) a
      ('.' :: (b ++ ('.' :: (c ++ (preOptChars pre ++ buildOptChars bld))))) ha.2
      (by intro y hy; simp only [List.head?_cons, Option.some.injEq] at hy
          rw [← hy]; decide)
    unfold isValidSemver matchVerCore
    rw [heq, s1.1, s1.2, if_neg ha.1]
    dsimp only
    rw [if_pos rfl, s2.1, s2.2, if_neg hb2.1]
    dsimp only
    rw [if_pos rfl, s3.1, s3.2, if_neg hc.1]
    exact matchOptPre_of_shape pre bld hpre hbld

/-! ## Changelog parsing — `parseChangelog` (src/changelog.ts)

The heading regex
`/^##\s*\[?v?(\d+\.\d+\.\d+(?:-[a-zA-Z0-9.-]+)?)\]?\s*(?:-\s*(\d{4}-\d{2}-\d{2}))?/`
is embedded as a greedy matcher; as with the semver regex, every quantified
part either excludes its follow character or is followed only by optional
parts, so greedy matching coincides with the backtracking semantics. -/

/-- `Version` from types/models.ts. -/
structure Version where
  version : String
  date : String
  changes : List String
deriving DecidableEq, Repr

/-- `ChangelogData` from types/models.ts. -/
structure ChangelogData where
  versions : List Version
  latestVersion : Option Version
deriving DecidableEq, Repr

/-- The bullet characters `[-*•]` of the change-line regexes. -/
def isBulletChar (c : Char) : Bool := c = '-' || c = '*' || c = '•'

/-- The test `line.match(/^[-*•]\s+/) || line.match(/^\s+[-*•]\s+/)`. -/
def isBulletLine (l : List Char) : Bool :=
  match l with
  | [] => false
  | c :: rest =>
    if isBulletChar c then
      match rest with
      | d :: _ => d.isWhitespace
      | [] => false
    else if c.isWhitespace then
      match l.dropWhile Char.isWhitespace with
      | b :: d :: _ => isBulletChar b && d.isWhitespace
      | _ => false
    else false

/-- The test `line.match(/^###\s+/)`. -/
def isSubheadingLine (l : List Char) : Bool :=
  match l with
  | '#' :: '#' :: '#' :: d :: _ => d.isWhitespace
  | _ => false

/-- Consumes the capture group `\d+\.\d+\.\d+(?:-[a-zA-Z0-9.-]+)?` greedily,
returning the captured characters and the remainder of the line. -/
def capVersion (l : List Char) : Option (List Char × List Char) :=
  let d1 := l.takeWhile Char.isDigit
  if d1 = [] then none
  else
    match l.dropWhile Char.isDigit with
    | c1 :: r1 =>
      if c1 = '.' then
        let d2 := r1.takeWhile Char.isDigit
        if d2 = [] then none
        else
          match r1.dropWhile Char.isDigit with
          | c2 :: r2 =>
            if c2 = '.' then
              let d3 := r2.takeWhile Char.isDigit
              if d3 = [] then none
              else
                match r2.dropWhile Char.isDigit with
                | c3 :: r4 =>
                  if c3 = '-' then
                    let pre := r4.takeWhile isIdentChar
                    if pre = [] then
                      some (d1 ++ ('.' :: (d2 ++ ('.' :: d3))), c3 :: r4)
                    else
                      some (d1 ++ ('.' :: (d2 ++ ('.' :: (d3 ++ ('-' :: pre))))),
                        r4.dropWhile isIdentChar)
                  else some (d1 ++ ('.' :: (d2 ++ ('.' :: d3))), c3 :: r4)
                | [] => some (d1 ++ ('.' :: (d2 ++ ('.' :: d3))), [])
            else none
          | [] => none
      else none
    | [] => none

/-- Takes exactly `n` digits from the front of the list. -/
def takeExactDigits : Nat → List Char → Option (List Char × List Char)
  | 0, l => some ([], l)
  | _ + 1, [] => none
  | n + 1, c :: cs =>
    if c.isDigit then
      match takeExactDigits n cs with
      | some (ds, rest) => some (c :: ds, rest)
      | none => none
    else none

/-- The optional date group `(?:-\s*(\d{4}-\d{2}-\d{2}))?` of the heading
regex, applied at the current position; `none` when the group matches empty
(no capture), which is what the regex does whenever the full group cannot
match here. -/
def dateParse (l : List Char) : Option (List Char) :=
  match l with
  | [] => none
  | c :: r =>
    if c = '-' then
      match takeExactDigits 4 (r.dropWhile Char.isWhitespace) with
      | none => none
      | some (y, rest1) =>
        match rest1 with
        | [] => none
        | d1 :: rest2 =>
          if d1 = '-' then
            match takeExactDigits 2 rest2 with
            | none => none
            | some (mo, rest3) =>
              match rest3 with
              | [] => none
              | d2 :: rest4 =>
                if d2 = '-' then
                  match takeExactDigits 2 rest4 with
                  | none => none
                  | some (da, _) => some (y ++ ('-' :: (mo ++ ('-' :: da))))
                else none
          else none
    else none

/-- The heading regex applied to one line: the two capture groups (version
and optional date) when the line matches, `none` otherwise. -/
def headerParse (l : List Char) : Option (String × Option String) :=
  match l with
  | '#' :: '#' :: rest =>
    let r1 := rest.dropWhile Char.isWhitespace
    let r2 :=
      match r1 with
      | c :: r => if c = '[' then r else r1
      | [] => r1
    let r3 :=
      match r2 with
      | c :: r => if c = 'v' then r else r2
      | [] => r2
    match capVersion r3 with
    | none => none
    | some (ver, r4) =>
      let r5 :=
        match r4 with
        | c :: r => if c = ']' then r else r4
        | [] => r4
      some (String.mk ver, (dateParse (r5.dropWhile Char.isWhitespace)).map String.mk)
  | _ => none

/-- The flush step of `parseChangelog`: the pending version is appended only
when it has collected at least one change line. -/
def flushVersion (curV : Option Version) (curC : List String) (acc : List Version) :
    List Version :=
  match curV with
  | some v => if curC ≠ [] then acc ++ [{ v with changes := curC }] else acc
  | none => acc

/-- The line-scanning loop of `parseChangelog`: state is the current version
record, its collected change lines, and the versions already flushed. -/
def parseLines : List (List Char) → Option Version → List String → List Version → List Version
  | [], curV, curC, acc => flushVersion curV curC acc
  | line :: rest, curV, curC, acc =>
    match headerParse line with
    | some (ver, date) =>
      parseLines rest (some ⟨ver, date.getD "Unknown", []⟩) [] (flushVersion curV curC acc)
    | none =>
      if curV.isSome && decide (trimChars line ≠ []) then
        if isBulletLine line then
          parseLines rest curV (curC ++ [String.mk (trimChars line)]) acc
        else if isSubheadingLine line then
          parseLines rest curV (curC ++ [String.mk (trimChars line)]) acc
        else parseLines rest curV curC acc
      else parseLines rest curV curC acc

/-- `parseChangelog` from src/changelog.ts; `.error` models the thrown
`WorkerError(PARSE_ERROR)`, raised on falsy input and on zero parsed
versions. -/
def parseChangelog (markdown : String) : Except JsErr ChangelogData :=
  if markdown = "" then .error (.workerError .PARSE_ERROR .otherMsg none)
  else
    let versions := parseLines (splitOnChar '\n' markdown.data) none [] []
    if versions = [] then .error (.workerError .PARSE_ERROR .otherMsg none)
    else .ok { versions := versions, latestVersion := versions.head? }

/-- `extractLatestVersion` from src/changelog.ts: parse errors are swallowed
to `none`, and the JS `data.latestVersion?.version || null` maps an empty
version string to `null`. -/
def extractLatestVersion (markdown : String) : Option String :=
  match parseChangelog markdown with
  | .error _ => none
  | .ok data =>
    match data.latestVersion with
    | none => none
    | some lv => if lv.version = "" then none else some lv.version

/-! ## Claims C7 and C8: parseChangelog -/

theorem parseLines_no_header :
    ∀ (lines : List (List Char)), (∀ l ∈ lines, headerParse l = none) →
      ∀ curC acc, parseLines lines none curC acc = acc
  | [], _, curC, acc => rfl
  | line :: rest, h, curC, acc => by
    have hl : headerParse line = none := h line (List.mem_cons_self line rest)
    have hrest : ∀ l ∈ rest, headerParse l = none :=
      fun l hm => h l (List.mem_cons_of_mem line hm)
    simp only [parseLines, hl, Option.isSome_none, Bool.false_and, Bool.false_eq_true,
      if_false]
    exact parseLines_no_header rest hrest curC acc

/-- C8: `parseChangelog` fails with a `PARSE_ERROR` `WorkerError` on the
empty string, and on every text in which no line matches the version heading
regex. -/
theorem parseChangelog_no_header_error :
    parseChangelog "" = .error (.workerError .PARSE_ERROR .otherMsg none) ∧
    ∀ md : String, (∀ l ∈ splitOnChar '\n' md.data, headerParse l = none) →
      parseChangelog md = .error (.workerError .PARSE_ERROR .otherMsg none) := by
  constructor
  · rfl
  · intro md h
    unfold parseChangelog
    by_cases hmd : md = ""
    · rw [if_pos hmd]
    · rw [if_neg hmd, parseLines_no_header _ h [] []]
      rfl

/-- Witness for C8 at `"hello\nworld"` (a text with zero version headers). -/
theorem parseChangelog_no_header_error_witness :
    (∀ l ∈ splitOnChar '\n' ("hello\nworld" : String).data, headerParse l = none) ∧
    parseChangelog "hello\nworld" = .error (.workerError .PARSE_ERROR .otherMsg none) :=
  ⟨by decide, parseChangelog_no_header_error.2 "hello\nworld" (by decide)⟩

/-- One synthetic changelog entry: a heading line followed by its bullet
lines. -/
structure ChangelogEntry where
  header : List Char
  ver : String
  date : Option String
  bullets : List (List Char)
deriving DecidableEq, Repr

/-- The `Version` record `parseChangelog` produces for an entry. -/
def entryVersion (e : ChangelogEntry) : Version :=
  ⟨e.ver, e.date.getD "Unknown", e.bullets.map (fun b => String.mk (trimChars b))⟩

/-- The lines an entry contributes to the document. -/
def entryLines (e : ChangelogEntry) : List (List Char) := e.header :: e.bullets

theorem parseLines_bullets :
    ∀ (bs : List (List Char)),
      (∀ b ∈ bs, headerParse b = none ∧ isBulletLine b = true ∧ trimChars b ≠ []) →
      ∀ rest v curC acc,
        parseLines (bs ++ rest) (some v) curC acc =
          parseLines rest (some v)
            (curC ++ bs.map (fun b => String.mk (trimChars b))) acc
  | [], _, rest, v, curC, acc => by simp
  | b :: bs, h, rest, v, curC, acc => by
    have hb := h b (List.mem_cons_self b bs)
    have hbs : ∀ x ∈ bs, headerParse x = none ∧ isBulletLine x = true ∧ trimChars x ≠ [] :=
      fun x hm => h x (List.mem_cons_of_mem b hm)
    simp only [List.cons_append, parseLines, hb.1, Option.isSome_some, Bool.true_and,
      hb.2.1, hb.2.2, decide_eq_true_eq, ne_eq, not_false_eq_true, if_true,
      List.append_eq]
    rw [parseLines_bullets bs hbs rest v (curC ++ [String.mk (trimChars b)]) acc]
    simp

theorem parseLines_entries :
    ∀ (entries : List ChangelogEntry),
      (∀ e ∈ entries, headerParse e.header = some (e.ver, e.date)) →
      (∀ e ∈ entries, e.bullets ≠ []) →
      (∀ e ∈ entries, ∀ b ∈ e.bullets,
        headerParse b = none ∧ isBulletLine b = true ∧ trimChars b ≠ []) →
      ∀ v curC acc, curC ≠ [] →
        parseLines (entries.flatMap entryLines) (some v) curC acc =
          (acc ++ [{ v with changes := curC }]) ++ entries.map entryVersion
  | [], _, _, _, v, curC, acc, hcur => by
    simp [parseLines, flushVersion, hcur]
  | e :: rest, hh, hb, hbl, v, curC, acc, hcur => by
    have hhe := hh e (List.mem_cons_self e rest)
    have hbe := hb e (List.mem_cons_self e rest)
    have hble := hbl e (List.mem_cons_self e rest)
    have hhr : ∀ x ∈ rest, headerParse x.header = some (x.ver, x.date) :=
      fun x hm => hh x (List.mem_cons_of_mem e hm)
    have hbr : ∀ x ∈ rest, x.bullets ≠ [] := fun x hm => hb x (List.mem_cons_of_mem e hm)
    have hblr : ∀ x ∈ rest, ∀ b ∈ x.bullets,
        headerParse b = none ∧ isBulletLine b = true ∧ trimChars b ≠ [] :=
      fun x hm => hbl x (List.mem_cons_of_mem e hm)
    have hflat : (e :: rest).flatMap entryLines =
        e.header :: (e.bullets ++ rest.flatMap entryLines) := by
      simp [entryLines]
    rw [hflat]
    simp only [parseLines, hhe]
    rw [parseLines_bullets e.bullets hble (rest.flatMap entryLines) _ [] _]
    have hmapne : e.bullets.map (fun b => String.mk (trimChars b)) ≠ [] := by
      simpa using hbe
    rw [parseLines_entries rest hhr hbr hblr _ _ _ (by simpa using hmapne)]
    simp [flushVersion, hcur, entryVersion, List.append_assoc]

/-- C7: a synthetic changelog of `N` heading lines, each followed by at least
one bullet line, parses to exactly `N` versions in document order, with the
topmost entry as `latestVersion`. -/
theorem parseChangelog_roundtrip (md : String) (entries : List ChangelogEntry)
    (hne : entries ≠ [])
    (hheader : ∀ e ∈ entries, headerParse e.header = some (e.ver, e.date))
    (hbne : ∀ e ∈ entries, e.bullets ≠ [])
    (hbul : ∀ e ∈ entries, ∀ b ∈ e.bullets,
      headerParse b = none ∧ isBulletLine b = true ∧ trimChars b ≠ [])
    (hsplit : splitOnChar '\n' md.data = entries.flatMap entryLines) :
    parseChangelog md =
      .ok { versions := entries.map entryVersion,
            latestVersion := (entries.map entryVersion).head? } ∧
    (entries.map entryVersion).length = entries.length := by
  refine ⟨?_, by simp⟩
  obtain ⟨e0, rest, rfl⟩ : ∃ e0 rest, entries = e0 :: rest := by
    cases entries with
    | nil => exact absurd rfl hne
    | cons e0 rest => exact ⟨e0, rest, rfl⟩
  have hmd : md ≠ "" := by
    intro hmd
    subst hmd
    have h0 : splitOnChar '\n' ("" : String).data = [[]] := rfl
    rw [h0] at hsplit
    have hh0 := hheader e0 (List.mem_cons_self e0 rest)
    have he0 : e0.header = [] := by
      have h2 := hsplit
      simp [entryLines] at h2
      exact h2.1
    rw [he0] at hh0
    simp [headerParse] at hh0
  have hrun : parseLines (splitOnChar '\n' md.data) none [] [] =
      (e0 :: rest).map entryVersion := by
    rw [hsplit]
    have hflat : (e0 :: rest).flatMap entryLines =
        e0.header :: (e0.bullets ++ rest.flatMap entryLines) := by
      simp [entryLines]
    rw [hflat]
    have hhe := hheader e0 (List.mem_cons_self e0 rest)
    simp only [parseLines, hhe]
    rw [parseLines_bullets e0.bullets (hbul e0 (List.mem_cons_self e0 rest))
      (rest.flatMap entryLines) _ [] _]
    have hmapne : e0.bullets.map (fun b => String.mk (trimChars b)) ≠ [] := by
      simpa using hbne e0 (List.mem_cons_self e0 rest)
    rw [parseLines_entries rest
      (fun x hm => hheader x (List.mem_cons_of_mem e0 hm))
      (fun x hm => hbne x (List.mem_cons_of_mem e0 hm))
      (fun x hm => hbul x (List.mem_cons_of_mem e0 hm))
      _ _ _ (by simpa using hmapne)]
    simp [flushVersion, entryVersion]
  unfold parseChangelog
  rw [if_neg hmd, hrun]
  have hne2 : (e0 :: rest).map entryVersion ≠ [] := by simp
  rw [if_neg hne2]

/-- Witness for C7 on a two-entry changelog. -/
theorem parseChangelog_roundtrip_witness :
    (let entries : List ChangelogEntry :=
      [⟨("## 1.1.0").data, "1.1.0", none, [("- new thing").data]⟩,
       ⟨("## 1.0.0 - 2024-01-15").data, "1.0.0", some "2024-01-15",
         [("- base").data, ("* extra").data]⟩];
    parseChangelog "## 1.1.0\n- new thing\n## 1.0.0 - 2024-01-15\n- base\n* extra" =
      .ok { versions := entries.map entryVersion,
            latestVersion := (entries.map entryVersion).head? } ∧
    (entries.map entryVersion).length = entries.length) :=
  parseChangelog_roundtrip
    "## 1.1.0\n- new thing\n## 1.0.0 - 2024-01-15\n- base\n* extra" _
    (by decide)
    (by decide)
    (by decide)
    (by decide)
    (by decide)

/-! ## State store and orchestrator (src/storage.ts, state-manager, index.ts)

Stateful code is embedded by explicit world passing.  The world holds the KV
namespace content, fault-injection schedules for the KV primitives and the
Telegram API (a `true` at index `k` makes the `k`-th primitive call of that
kind throw a platform error), the changelog body the fetch returns, the
clock value `new Date().toISOString()` returns, and an event trace recording
KV writes, dispatched notifications, and backoff sleeps.  Every function
returns `Except (JsErr × World) (α × World)`: a JS exception does not roll
back state, so the world travels on both paths. -/

/-- `StorageState` from types/models.ts. -/
structure StorageState where
  lastVersion : String
  lastCheckTime : String
  lastNotificationTime : Option String
deriving DecidableEq, Repr

/-- What `kv.get` can find under the storage key: a structurally valid
`StorageState`, or data failing `isValidStorageState`. -/
inductive KVValue where
  | valid (s : StorageState)
  | corrupt
deriving DecidableEq, Repr

/-- Observable effects, in order of occurrence. -/
inductive Event where
  | kvPut (s : StorageState)
  | notifySent (version : String)
  | sleep (ms : Nat)
deriving DecidableEq, Repr

/-- Fault schedule lookup: entries beyond the list are `false` (no fault). -/
def nthBool : List Bool → Nat → Bool
  | [], _ => false
  | b :: _, 0 => b
  | _ :: bs, n + 1 => nthBool bs n

/-- The world threaded through the embedded stateful code. -/
structure World where
  kv : Option KVValue
  kvFaults : List Bool
  kvOpCount : Nat
  tgFaults : List Bool
  tgAttemptCount : Nat
  changelog : String
  changelogUrl : String
  now : String
  events : List Event
deriving DecidableEq, Repr

/-- Result of a stateful step. -/
def Res (α : Type) : Type := Except (JsErr × World) (α × World)

/-- Appends a backoff sleep to the trace. -/
def sleepW (ms : Nat) (w : World) : World := { w with events := w.events ++ [.sleep ms] }

/-- One `kv.get(STORAGE_KEY, 'json')` call. -/
def kvGetRaw (w : World) : Res (Option KVValue) :=
  let w1 := { w with kvOpCount := w.kvOpCount + 1 }
  if nthBool w.kvFaults w.kvOpCount then .error (.platform w.kvOpCount, w1)
  else .ok (w.kv, w1)

/-- One `kv.put(STORAGE_KEY, JSON.stringify(state), {expirationTtl, ...})`
call (the 30-day TTL and metadata do not affect any claim and are not
recorded). -/
def kvPutRaw (s : StorageState) (w : World) : Res Unit :=
  let w1 := { w with kvOpCount := w.kvOpCount + 1 }
  if nthBool w.kvFaults w.kvOpCount then .error (.platform w.kvOpCount, w1)
  else .ok ((), { w1 with kv := some (.valid s), events := w1.events ++ [.kvPut s] })

/-- The body of one `try` block of `getState`: a raw get; missing data
returns `null`; data failing `isValidStorageState` throws the
`WorkerError(STORAGE_ERROR, "Invalid state data structure in KV storage")`. -/
def getStateAttempt (w : World) : Res (Option StorageState) :=
  match kvGetRaw w with
  | .error e => .error e
  | .ok (none, w1) => .ok (none, w1)
  | .ok (some (.valid s), w1) => .ok (some s, w1)
  | .ok (some .corrupt, w1) =>
    .error (.workerError .STORAGE_ERROR .invalidStateData none, w1)

/-- Final error mapping of `getState`: a `WorkerError` last error is
re-thrown as-is, anything else is wrapped in a `StorageError` carrying it. -/
def wrapGetFinal : JsErr → JsErr
  | .workerError c m o => .workerError c m o
  | .platform t => .workerError .STORAGE_ERROR .otherMsg (some t)

/-- The retry loop of `getState`: `remaining` further attempts are allowed
after the current one; between attempts it sleeps `1000 * (attempt + 1)` ms
(`attempt` is the 0-based index of the attempt that just failed). -/
def getStateLoop : Nat → Nat → World → Res (Option StorageState)
  | remaining, attempt, w =>
    match getStateAttempt w with
    | .ok r => .ok r
    | .error (e, w1) =>
      match remaining with
      | 0 => .error (wrapGetFinal e, w1)
      | r + 1 => getStateLoop r (attempt + 1) (sleepW (1000 * (attempt + 1)) w1)

/-- `getState` from src/storage.ts; the source default is `retries = 2`. -/
def getState (kvRetries : Nat) (w : World) : Res (Option StorageState) :=
  getStateLoop kvRetries 0 w

/-- The retry loop of `setState` (state validation is a no-op here: the typed
embedding only builds structurally valid states).  After exhausting the
retries `setState` always wraps the last error in a new
`WorkerError(STORAGE_ERROR)`. -/
def setStateLoop (s : StorageState) : Nat → Nat → World → Res Unit
  | remaining, attempt, w =>
    match kvPutRaw s w with
    | .ok r => .ok r
    | .error (e, w1) =>
      match remaining with
      | 0 =>
        .error (.workerError .STORAGE_ERROR .otherMsg
          (match e with | .platform t => some t | _ => none), w1)
      | r + 1 => setStateLoop s r (attempt + 1) (sleepW (1000 * (attempt + 1)) w1)

/-- `setState` from src/storage.ts; the source default is `retries = 2`. -/
def setState (s : StorageState) (kvRetries : Nat) (w : World) : Res Unit :=
  setStateLoop s kvRetries 0 w

/-- `isFirstRun` from src/storage.ts: a `getState` with 0 retries; `null`
means first run; a `STORAGE_ERROR` whose message contains
`"Invalid state data"` is treated as first run; other errors re-throw. -/
def isFirstRun (w : World) : Res Bool :=
  match getState 0 w with
  | .ok (st, w1) => .ok (st.isNone, w1)
  | .error (e, w1) =>
    match e with
    | .workerError .STORAGE_ERROR .invalidStateData _ => .ok (true, w1)
    | _ => .error (e, w1)

/-- `initializeState` from src/storage.ts: rejects a falsy version, writes
`{lastVersion, lastCheckTime: now}` with no `lastNotificationTime` (errors
from `setState` are `WorkerError`s and re-throw unchanged). -/
def initializeState (currentVersion : String) (w : World) : Res StorageState :=
  if currentVersion = "" then
    .error (.workerError .STORAGE_ERROR .otherMsg none, w)
  else
    let initialState : StorageState := ⟨currentVersion, w.now, none⟩
    match setState initialState 2 w with
    | .ok (_, w1) => .ok (initialState, w1)
    | .error e => .error e

/-- `fetchChangelog` from src/changelog.ts under a reachable network: the
fetch returns `w.changelog`; the 1 MiB size cap and the empty-body check are
kept (`length` is the JS UTF-16 length; the inputs of every claim are
ASCII so `String.length` agrees).  Network-level failures are not modelled —
no claim quantifies over them. -/
def fetchChangelog (w : World) : Res String :=
  if w.changelog.length > 1024 * 1024 then
    .error (.workerError .FETCH_ERROR .otherMsg none, w)
  else if jsTrim w.changelog = "" then
    .error (.workerError .FETCH_ERROR .otherMsg none, w)
  else .ok (w.changelog, w)

/-- `StateInitResult` from the state-manager module. -/
structure StateInitResult where
  isFirstRun : Bool
  currentState : StorageState
  versionFromChangelog : String
  shouldNotify : Bool
deriving DecidableEq, Repr

/-- The catch block of `handleStateInitialization`: `WorkerError`s re-throw
as-is, anything else wraps into a `StorageError`. -/
def wrapInit : JsErr → JsErr
  | .workerError c m o => .workerError c m o
  | .platform t => .workerError .STORAGE_ERROR .otherMsg (some t)

/-- `handleStateInitialization` from the state-manager module. -/
def handleStateInitialization (w : World) : Res StateInitResult :=
  match isFirstRun w with
  | .error (e, w1) => .error (wrapInit e, w1)
  | .ok (firstRun, w1) =>
    match fetchChangelog w1 with
    | .error (e, w2) => .error (wrapInit e, w2)
    | .ok (markdown, w2) =>
      match extractLatestVersion markdown with
      | none => .error (.workerError .PARSE_ERROR .otherMsg none, w2)
      | some versionFromChangelog =>
        if firstRun then
          match initializeState versionFromChangelog w2 with
          | .error (e, w3) => .error (wrapInit e, w3)
          | .ok (initialState, w3) =>
            .ok (⟨true, initialState, versionFromChangelog, false⟩, w3)
        else
          match getState 2 w2 with
          | .error (e, w3) => .error (wrapInit e, w3)
          | .ok (none, w3) =>
            .error (.workerError .STORAGE_ERROR .otherMsg none, w3)
          | .ok (some currentState, w3) =>
            let updatedState := { currentState with lastCheckTime := w3.now }
            match setState updatedState 2 w3 with
            | .error (e, w4) => .error (wrapInit e, w4)
            | .ok (_, w4) =>
              .ok (⟨false, updatedState, versionFromChangelog, false⟩, w4)

/-- Result record of `performVersionCheck`. -/
structure VersionCheckOutcome where
  shouldNotify : Bool
  currentVersion : String
  latestVersion : String
  state : StorageState
deriving DecidableEq, Repr

/-- `performVersionCheck` from the state-manager module. -/
def performVersionCheck (w : World) : Res VersionCheckOutcome :=
  match handleStateInitialization w with
  | .error e => .error e
  | .ok (ir, w1) =>
    if ir.isFirstRun then
      .ok (⟨false, ir.currentState.lastVersion, ir.versionFromChangelog,
        ir.currentState⟩, w1)
    else
      .ok (⟨isNewVersionAvailable ir.currentState.lastVersion ir.versionFromChangelog,
        ir.currentState.lastVersion, ir.versionFromChangelog, ir.currentState⟩, w1)

/-- `TelegramMessage` from types/models.ts. -/
structure TelegramMessage where
  version : String
  date : String
  changes : List String
  changelogUrl : String
deriving DecidableEq, Repr

/-- `createTelegramMessage` from the notification-formatter module. -/
def createTelegramMessage (v : Version) (changelogUrl : String) :
    Except JsErr TelegramMessage :=
  if v.version = "" then .error (.workerError .VALIDATION_ERROR .otherMsg none)
  else .ok ⟨v.version, v.date, v.changes, changelogUrl⟩

/-- One Telegram `sendMessage` API call.  A scheduled fault is surfaced as
the `WorkerError(API_ERROR)` the source builds from a failed response (the
rate-limit 429 variant and its retry-after delay are not modelled — no claim
depends on them); a success appends a `notifySent` event. -/
def tgAttempt (msg : TelegramMessage) (w : World) : Res Unit :=
  let w1 := { w with tgAttemptCount := w.tgAttemptCount + 1 }
  if nthBool w.tgFaults w.tgAttemptCount then
    .error (.workerError .API_ERROR .otherMsg none, w1)
  else .ok ((), { w1 with events := w1.events ++ [.notifySent msg.version] })

/-- The retry loop of `sendTelegramNotification`: attempts run while
`attempt < retries`; between attempts it sleeps
`min(2^attempt * 1000, 10000)` ms; after the loop a `WorkerError` last error
re-throws as-is, otherwise a wrapping `WorkerError(API_ERROR)` is thrown
(also covering `retries = 0`, where no attempt runs and `lastError` is
`undefined`). -/
def sendLoop (msg : TelegramMessage) : Nat → Nat → World → Res Unit
  | 0, _, w => .error (.workerError .API_ERROR .otherMsg none, w)
  | remaining + 1, attempt, w =>
    match tgAttempt msg w with
    | .ok r => .ok r
    | .error (e, w1) =>
      match remaining with
      | 0 => .error (wrapGetFinal e, w1)
      | r + 1 => sendLoop msg (r + 1) (attempt + 1)
          (sleepW (min (2 ^ attempt * 1000) 10000) w1)

/-- `sendTelegramNotification` from src/telegram.ts (configuration is
modelled as valid; the in-process rate limiter never reaches its 20-per-60s
cap in a single run and is not modelled).  The source default is
`retries = 3`. -/
def sendTelegramNotification (msg : TelegramMessage) (retries : Nat) (w : World) :
    Res Unit :=
  if msg.version = "" then
    .error (.workerError .VALIDATION_ERROR .otherMsg none, w)
  else sendLoop msg retries 0 w

/-- `updateStateAfterNotification` from the state-manager module. -/
def updateStateAfterNotification (newVersion : String) (w : World) : Res StorageState :=
  match getState 2 w with
  | .error e => .error e
  | .ok (none, w1) => .error (.workerError .STORAGE_ERROR .otherMsg none, w1)
  | .ok (some _, w1) =>
    let updatedState : StorageState := ⟨newVersion, w1.now, some w1.now⟩
    match setState updatedState 2 w1 with
    | .error e => .error e
    | .ok (_, w2) => .ok (updatedState, w2)

/-- The main workflow of the `scheduled` handler in src/index.ts
(configuration loading/validation, logging and performance tracking are
elided; on `shouldNotify` the handler re-fetches and re-parses the changelog,
builds the message, dispatches it, and only then updates the state). -/
def scheduledRun (w : World) : Res Unit :=
  match performVersionCheck w with
  | .error e => .error e
  | .ok (checkResult, w1) =>
    if checkResult.shouldNotify then
      match fetchChangelog w1 with
      | .error e => .error e
      | .ok (changelogContent, w2) =>
        match parseChangelog changelogContent with
        | .error e => .error (e, w2)
        | .ok changelogData =>
          match changelogData.latestVersion with
          | none => .error (.workerError .PARSE_ERROR .otherMsg none, w2)
          | some latestVersion =>
            match createTelegramMessage latestVersion w2.changelogUrl with
            | .error e => .error (e, w2)
            | .ok message =>
              match sendTelegramNotification message 3 w2 with
              | .error e => .error e
              | .ok (_, w3) =>
                match updateStateAfterNotification checkResult.latestVersion w3 with
                | .error e => .error e
                | .ok (_, w4) => .ok ((), w4)
    else .ok ((), w1)

/-! ## Claims C1, C2, C6: storage retries and the orchestrator -/

theorem nthBool_nil (n : Nat) : nthBool [] n = false := by cases n <;> rfl

theorem extractLatestVersion_spec (md : String) (v : String)
    (h : extractLatestVersion md = some v) :
    v ≠ "" ∧ ∃ d lv, parseChangelog md = .ok d ∧ d.latestVersion = some lv ∧
      lv.version = v := by
  unfold extractLatestVersion at h
  cases hp : parseChangelog md with
  | error e => rw [hp] at h; exact absurd h (by simp)
  | ok d =>
    rw [hp] at h
    dsimp only at h
    cases hl : d.latestVersion with
    | none => rw [hl] at h; exact absurd h (by simp)
    | some lv =>
      rw [hl] at h
      dsimp only at h
      by_cases hv : lv.version = ""
      · rw [if_pos hv] at h; exact absurd h (by simp)
      · rw [if_neg hv] at h
        have hveq : lv.version = v := Option.some.inj h
        exact ⟨hveq ▸ hv, d, lv, rfl, hl, hveq⟩

/-- C6: with the source default of 2 retries, a `getState` or `setState`
whose underlying KV operations all fail performs exactly 3 primitive calls
(the initial attempt plus 2 retries), sleeps `attempt * 1s` between
consecutive attempts (1 s then 2 s), leaves the stored value untouched, and
fails with a `WorkerError(STORAGE_ERROR)` whose `originalError` is the last
underlying error (the platform error of the third call). -/
theorem storage_retry_exhaustion (w : World) (s : StorageState)
    (hc : w.kvOpCount = 0)
    (h0 : nthBool w.kvFaults 0 = true)
    (h1 : nthBool w.kvFaults 1 = true)
    (h2 : nthBool w.kvFaults 2 = true) :
    getState 2 w = .error (.workerError .STORAGE_ERROR .otherMsg (some 2),
      { w with kvOpCount := 3, events := w.events ++ [.sleep 1000, .sleep 2000] }) ∧
    setState s 2 w = .error (.workerError .STORAGE_ERROR .otherMsg (some 2),
      { w with kvOpCount := 3, events := w.events ++ [.sleep 1000, .sleep 2000] }) := by
  constructor <;>
    simp [getState, getStateLoop, getStateAttempt, kvGetRaw, wrapGetFinal,
      setState, setStateLoop, kvPutRaw, sleepW, hc, h0, h1, h2]

/-- Witness for C6 with all three KV operations failing. -/
theorem storage_retry_exhaustion_witness :
    (let w : World := ⟨some (.valid ⟨"1.0.0", "t0", none⟩), [true, true, true], 0,
      [], 0, "c", "u", "t1", []⟩;
    getState 2 w = .error (.workerError .STORAGE_ERROR .otherMsg (some 2),
      { w with kvOpCount := 3, events := w.events ++ [.sleep 1000, .sleep 2000] }) ∧
    setState ⟨"2.0.0", "t1", none⟩ 2 w =
      .error (.workerError .STORAGE_ERROR .otherMsg (some 2),
        { w with kvOpCount := 3, events := w.events ++ [.sleep 1000, .sleep 2000] })) :=
  storage_retry_exhaustion _ ⟨"2.0.0", "t1", none⟩ rfl (by decide) (by decide) (by decide)

/-- C2: on a first run (no persisted state), a run with a parsable changelog
writes an initial state carrying the changelog's latest version and no
`lastNotificationTime`, and dispatches no notification (the trace holds the
single state write and no `notifySent` event). -/
theorem first_run_initializes_without_notifying (w : World) (v : String)
    (hkv : w.kv = none)
    (hnf : w.kvFaults = [])
    (hsize : w.changelog.length ≤ 1024 * 1024)
    (htrim : jsTrim w.changelog ≠ "")
    (hex : extractLatestVersion w.changelog = some v)
    (hev : w.events = []) :
    ∃ w1, scheduledRun w = .ok ((), w1) ∧
      w1.kv = some (.valid ⟨v, w.now, none⟩) ∧
      w1.events = [.kvPut ⟨v, w.now, none⟩] := by
  obtain ⟨hvne, d, lv, hp, hl, hlv⟩ := extractLatestVersion_spec _ _ hex
  refine ⟨{ w with
              kvOpCount := w.kvOpCount + 2,
              kv := some (.valid ⟨v, w.now, none⟩),
              events := [.kvPut ⟨v, w.now, none⟩] }, ?_, rfl, rfl⟩
  simp [scheduledRun, performVersionCheck, handleStateInitialization, isFirstRun,
    getState, getStateLoop, getStateAttempt, kvGetRaw, hnf, nthBool_nil, hkv,
    fetchChangelog, Nat.not_lt.mpr hsize, htrim, hex, initializeState, hvne,
    setState, setStateLoop, kvPutRaw, hev]

/-- Witness for C2: empty KV, changelog with latest version 2.3.0. -/
theorem first_run_initializes_without_notifying_witness :
    (let w : World := ⟨none, [], 0, [], 0, "## 2.3.0\n- a", "u", "t1", []⟩;
    ∃ w1, scheduledRun w = .ok ((), w1) ∧
      w1.kv = some (.valid ⟨"2.3.0", "t1", none⟩) ∧
      w1.events = [.kvPut ⟨"2.3.0", "t1", none⟩]) :=
  first_run_initializes_without_notifying _ "2.3.0" rfl rfl (by decide) (by decide)
    (by decide) rfl

/-- C1: on a non-first run whose changelog latest version `v` is strictly
newer than the persisted `lastVersion`, a successful dispatch updates the
store to `v` with a fresh `lastNotificationTime`, and the trace shows the
write of `v` strictly after the dispatched notification (the only earlier
write is the `lastCheckTime` touch, which keeps `lastVersion` unchanged); a
dispatch that exhausts its three attempts propagates the failure and leaves
the store at the old `lastVersion` (only the `lastCheckTime` touch is
written, followed by the two retry sleeps). -/
theorem orchestrator_advance (w : World) (st : StorageState) (v : String)
    (hkv : w.kv = some (.valid st))
    (hnf : w.kvFaults = [])
    (htg : w.tgAttemptCount = 0)
    (hsize : w.changelog.length ≤ 1024 * 1024)
    (htrim : jsTrim w.changelog ≠ "")
    (hex : extractLatestVersion w.changelog = some v)
    (hnew : isNewVersionAvailable st.lastVersion v = true)
    (hev : w.events = []) :
    (w.tgFaults = [] →
      scheduledRun w = .ok ((), { w with
        kvOpCount := w.kvOpCount + 5,
        tgAttemptCount := 1,
        kv := some (.valid ⟨v, w.now, some w.now⟩),
        events := [.kvPut { st with lastCheckTime := w.now },
          .notifySent v, .kvPut ⟨v, w.now, some w.now⟩] })) ∧
    (w.tgFaults = [true, true, true] →
      scheduledRun w = .error (.workerError .API_ERROR .otherMsg none, { w with
        kvOpCount := w.kvOpCount + 3,
        tgAttemptCount := 3,
        kv := some (.valid { st with lastCheckTime := w.now }),
        events := [.kvPut { st with lastCheckTime := w.now },
          .sleep 1000, .sleep 2000] })) := by
  obtain ⟨hvne, d, lv, hp, hl, hlv⟩ := extractLatestVersion_spec _ _ hex
  have hlvne : ¬lv.version = "" := by rw [hlv]; exact hvne
  constructor
  · intro htgf
    simp [scheduledRun, performVersionCheck, handleStateInitialization, isFirstRun,
      getState, getStateLoop, getStateAttempt, kvGetRaw, hnf, nthBool_nil, hkv,
      fetchChangelog, Nat.not_lt.mpr hsize, htrim, hex, hnew, hp, hl, hlvne, hlv,
      hvne, createTelegramMessage, sendTelegramNotification, sendLoop, tgAttempt,
      htgf, htg, updateStateAfterNotification, setState, setStateLoop, kvPutRaw,
      hev, sleepW, nthBool]
  · intro htgf
    simp [scheduledRun, performVersionCheck, handleStateInitialization, isFirstRun,
      getState, getStateLoop, getStateAttempt, kvGetRaw, hnf, nthBool_nil, hkv,
      fetchChangelog, Nat.not_lt.mpr hsize, htrim, hex, hnew, hp, hl, hlvne, hlv,
      hvne, createTelegramMessage, sendTelegramNotification, sendLoop, tgAttempt,
      htgf, htg, updateStateAfterNotification, setState, setStateLoop, kvPutRaw,
      hev, sleepW, nthBool, wrapGetFinal, Nat.min_def]

/-- Witness for C1: persisted 1.0.0, changelog latest 1.1.0, exercising both
the all-successful and the all-failing dispatch schedules. -/
theorem orchestrator_advance_witness :
    (let wOk : World := ⟨some (.valid ⟨"1.0.0", "t0", none⟩), [], 0, [], 0,
      "## 1.1.0\n- x", "u", "t1", []⟩;
    scheduledRun wOk = .ok ((), { wOk with
      kvOpCount := wOk.kvOpCount + 5,
      tgAttemptCount := 1,
      kv := some (.valid ⟨"1.1.0", "t1", some "t1"⟩),
      events := [.kvPut { (⟨"1.0.0", "t0", none⟩ : StorageState) with lastCheckTime := "t1" },
        .notifySent "1.1.0", .kvPut ⟨"1.1.0", "t1", some "t1"⟩] })) ∧
    (let wBad : World := ⟨some (.valid ⟨"1.0.0", "t0", none⟩), [], 0,
      [true, true, true], 0, "## 1.1.0\n- x", "u", "t1", []⟩;
    scheduledRun wBad = .error (.workerError .API_ERROR .otherMsg none, { wBad with
      kvOpCount := wBad.kvOpCount + 3,
      tgAttemptCount := 3,
      kv := some (.valid { (⟨"1.0.0", "t0", none⟩ : StorageState) with lastCheckTime := "t1" }),
      events := [.kvPut { (⟨"1.0.0", "t0", none⟩ : StorageState) with lastCheckTime := "t1" },
        .sleep 1000, .sleep 2000] })) :=
  ⟨(orchestrator_advance _ ⟨"1.0.0", "t0", none⟩ "1.1.0" rfl rfl rfl (by decide)
      (by decide) (by decide) (by decide) rfl).1 rfl,
   (orchestrator_advance _ ⟨"1.0.0", "t0", none⟩ "1.1.0" rfl rfl rfl (by decide)
      (by decide) (by decide) (by decide) rfl).2 rfl⟩

/-! ## Claim C3: the circuit breaker (src/error-recovery.ts) -/

/-- The breaker states `'closed' | 'open' | 'half-open'`. -/
inductive CBState where
  | closed
  | opened
  | halfOpen
deriving DecidableEq, Repr

/-- The fields and constructor parameters of `CircuitBreaker`.  Times are
`Date.now()` millisecond values, modelled as `Int`. -/
structure CircuitBreaker where
  failures : Nat
  lastFailureTime : Int
  state : CBState
  threshold : Nat
  timeout : Int
deriving DecidableEq, Repr

/-- Outcome of one `execute` call: rejected without invoking the function
(the thrown circuit-open `WorkerError(UNKNOWN_ERROR)`), or the invoked
function's own success or failure (a failure re-throws the function's
error). -/
inductive CBResult where
  | rejected
  | succeeded
  | failed
deriving DecidableEq, Repr

/-- `CircuitBreaker.execute` from src/error-recovery.ts: `now` is
`Date.now()` during this call and `fnSucceeds` is whether the wrapped
function, if invoked, succeeds.  Returns the outcome, whether the wrapped
function was invoked, and the updated breaker. -/
def CircuitBreaker.execute (cb : CircuitBreaker) (now : Int) (fnSucceeds : Bool) :
    CBResult × Bool × CircuitBreaker :=
  let step : CircuitBreaker → CBResult × Bool × CircuitBreaker := fun cb1 =>
    if fnSucceeds then
      if cb1.state = .halfOpen then
        (.succeeded, true, { cb1 with state := .closed, failures := 0 })
      else (.succeeded, true, cb1)
    else
      (.failed, true, { cb1 with
        failures := cb1.failures + 1,
        lastFailureTime := now,
        state := if cb1.failures + 1 ≥ cb1.threshold then .opened else cb1.state })
  if cb.state = .opened then
    if now - cb.lastFailureTime ≥ cb.timeout then
      step { cb with state := .halfOpen }
    else (.rejected, false, cb)
  else step cb

/-- A sequence of `execute` calls, each given by its `Date.now()` value and
whether the wrapped function would succeed. -/
def CircuitBreaker.executeSeq (cb : CircuitBreaker) : List (Int × Bool) → CircuitBreaker
  | [] => cb
  | (t, s) :: rest => ((cb.execute t s).2.2).executeSeq rest

theorem executeSeq_failures :
    ∀ (times : List Int) (cb : CircuitBreaker),
      cb.state = .closed → cb.failures + times.length = cb.threshold → times ≠ [] →
      ∃ tl, times.getLast? = some tl ∧
        cb.executeSeq (times.map (fun t => (t, false))) =
          { cb with failures := cb.threshold, lastFailureTime := tl, state := .opened }
  | [], _, _, _, hne => absurd rfl hne
  | [t], cb, hclosed, hlen, _ => by
    refine ⟨t, rfl, ?_⟩
    have hge : cb.failures + 1 ≥ cb.threshold := by
      simp at hlen
      omega
    have hth : cb.failures + 1 = cb.threshold := by simp at hlen; omega
    simp [CircuitBreaker.executeSeq, CircuitBreaker.execute, hclosed, hge, hth]
  | t1 :: t2 :: rest, cb, hclosed, hlen, _ => by
    have hlt : ¬cb.failures + 1 ≥ cb.threshold := by
      simp at hlen
      omega
    have hstep : cb.execute t1 false =
        (.failed, true, { cb with failures := cb.failures + 1, lastFailureTime := t1 }) := by
      simp [CircuitBreaker.execute, hclosed, hlt]
    have hrec := executeSeq_failures (t2 :: rest)
      { cb with failures := cb.failures + 1, lastFailureTime := t1 }
      (by simp [hclosed]) (by simp at hlen ⊢; omega) (by simp)
    obtain ⟨tl, hgl, hrun⟩ := hrec
    refine ⟨tl, ?_, ?_⟩
    · rw [List.getLast?_cons_cons]
      exact hgl
    · simp only [List.map_cons, CircuitBreaker.executeSeq, hstep]
      simp only [List.map_cons, CircuitBreaker.executeSeq] at hrun
      simpa using hrun

/-- C3: from a fresh breaker, `threshold` consecutive failures (at any times)
leave the breaker OPEN with the failure count at the threshold and the
failure time at the last failure; while OPEN and the timeout has not yet
elapsed, every `execute` rejects immediately without invoking the wrapped
function and without changing the breaker; once the timeout has elapsed the
(HALF_OPEN) probe call does invoke the function, and its success resets the
failure count and closes the breaker. -/
theorem circuitBreaker_machine (th : Nat) (tmo : Int) (hth : 1 ≤ th) :
    (∀ (times : List Int) (lft0 : Int), times.length = th →
      ∃ tl, times.getLast? = some tl ∧
        CircuitBreaker.executeSeq ⟨0, lft0, .closed, th, tmo⟩
            (times.map (fun t => (t, false))) =
          ⟨th, tl, .opened, th, tmo⟩) ∧
    (∀ (cb : CircuitBreaker) (now : Int) (s : Bool), cb.state = .opened →
      now - cb.lastFailureTime < cb.timeout →
      cb.execute now s = (.rejected, false, cb)) ∧
    (∀ (cb : CircuitBreaker) (now : Int), cb.state = .opened →
      now - cb.lastFailureTime ≥ cb.timeout →
      cb.execute now true =
        (.succeeded, true, { cb with state := .closed, failures := 0 })) := by
  refine ⟨?_, ?_, ?_⟩
  · intro times lft0 hlen
    have hne : times ≠ [] := by
      intro he
      rw [he] at hlen
      simp at hlen
      omega
    obtain ⟨tl, hgl, hrun⟩ := executeSeq_failures times ⟨0, lft0, .closed, th, tmo⟩
      rfl (by simpa using hlen) hne
    exact ⟨tl, hgl, hrun⟩
  · intro cb now s hopen hlt
    simp [CircuitBreaker.execute, hopen, Int.not_le.mpr hlt]
  · intro cb now hopen hge
    simp [CircuitBreaker.execute, hopen, hge]

/-- Witness for C3 with threshold 2, timeout 60000: two failures trip the
breaker; a call 50 ms later is rejected untouched; a probe past the timeout
succeeds and closes it. -/
theorem circuitBreaker_machine_witness :
    (∃ tl, ([(5 : Int), 7]).getLast? = some tl ∧
      CircuitBreaker.executeSeq ⟨0, 0, .closed, 2, 60000⟩
          ([(5 : Int), 7].map (fun t => (t, false))) = ⟨2, tl, .opened, 2, 60000⟩) ∧
    CircuitBreaker.execute ⟨2, 7, .opened, 2, 60000⟩ 57 true =
      (.rejected, false, ⟨2, 7, .opened, 2, 60000⟩) ∧
    CircuitBreaker.execute ⟨2, 7, .opened, 2, 60000⟩ 60007 true =
      (.succeeded, true, { (⟨2, 7, .opened, 2, 60000⟩ : CircuitBreaker) with
        state := .closed, failures := 0 }) :=
  ⟨(circuitBreaker_machine 2 60000 (by decide)).1 [5, 7] 0 (by decide),
   (circuitBreaker_machine 2 60000 (by decide)).2.1 ⟨2, 7, .opened, 2, 60000⟩ 57 true
     rfl (by decide),
   (circuitBreaker_machine 2 60000 (by decide)).2.2 ⟨2, 7, .opened, 2, 60000⟩ 60007
     rfl (by decide)⟩

end ClaudeMonitor
